import Mathlib

/-!
Shallow embedding of the batch metric-computation pipeline of
`src/app.py` (financial dashboard).  Optional provider values are
`Option ℚ` (Python `None` is `none`); arithmetic is over `ℚ`; a Python
expression that can raise (division by zero, `None` in arithmetic)
is embedded in `Except String`, and the `try`/`except` wrappers of the
source are the points where `Except` is discharged into data.
-/

/-- The per-ticker bundle of provider values, as read by `app.py`:
summary-info keys (`info.get(...)`), balance-sheet, income-statement and
cash-flow line items.  A `none` field is a key absent from the provider's
response. -/
structure RawFinancials where
  marketCap : Option ℚ
  beta : Option ℚ
  totalDebt : Option ℚ
  cashAndEquivalents : Option ℚ
  commonStockEquity : Option ℚ
  interestExpense : Option ℚ
  ebt : Option ℚ
  incomeTaxExpense : Option ℚ
  ebit : Option ℚ
  currentPrice : Option ℚ
  longName : Option String
  sector : Option String
  country : Option String
  industry : Option String
  trailingPE : Option ℚ
  priceToBook : Option ℚ
  dividendRate : Option ℚ
  dividendYield : Option ℚ
  payoutRatio : Option ℚ
  returnOnAssets : Option ℚ
  returnOnEquity : Option ℚ
  currentRatio : Option ℚ
  quickRatio : Option ℚ
  longTermDebtToEquity : Option ℚ
  debtToEquity : Option ℚ
  operatingMargins : Option ℚ
  profitMargins : Option ℚ
  freeCashFlow : Option ℚ
  sharesOutstanding : Option ℚ
  deriving DecidableEq

/-- A `RawFinancials` with every field absent; concrete inputs override
the fields they need. -/
def emptyRF : RawFinancials where
  marketCap := none
  beta := none
  totalDebt := none
  cashAndEquivalents := none
  commonStockEquity := none
  interestExpense := none
  ebt := none
  incomeTaxExpense := none
  ebit := none
  currentPrice := none
  longName := none
  sector := none
  country := none
  industry := none
  trailingPE := none
  priceToBook := none
  dividendRate := none
  dividendYield := none
  payoutRatio := none
  returnOnAssets := none
  returnOnEquity := none
  currentRatio := none
  quickRatio := none
  longTermDebtToEquity := none
  debtToEquity := none
  operatingMargins := none
  profitMargins := none
  freeCashFlow := none
  sharesOutstanding := none

/-- The three sidebar-configured WACC parameters of `app.py`
(globals `Rf`, `Rm`, `Tc`, lines 17-19 and 169-172).  They are in scope
of `calcular_wacc_y_roic`, so the embedded calculator receives them. -/
structure WaccParams where
  Rf : ℚ
  Rm : ℚ
  Tc : ℚ
  deriving DecidableEq

/-- Python division: raises `ZeroDivisionError` on a zero denominator
(`market_cap` / `deuda_total` are Python numbers at line 61). -/
def pydiv (a b : ℚ) : Except String ℚ :=
  if b = 0 then Except.error "ZeroDivisionError" else Except.ok (a / b)

/-- Line 54 of `app.py`: `kd = gastos_intereses / deuda_total if deuda_total != 0 else 0`. -/
def costOfDebt (rf : RawFinancials) : ℚ :=
  let deuda_total := rf.totalDebt.getD 0
  let gastos_intereses := rf.interestExpense.getD 0
  if deuda_total ≠ 0 then gastos_intereses / deuda_total else 0

/-- Line 57 of `app.py`:
`tasa_impuestos = impuestos / ebt if ebt != 0 else 0.21`. -/
def effectiveTaxRate (rf : RawFinancials) : ℚ :=
  let ebt := rf.ebt.getD 0
  let impuestos := rf.incomeTaxExpense.getD 0
  if ebt ≠ 0 then impuestos / ebt else 21/100

/-- Line 37 of `app.py`: `ke = rf + beta * equity_risk_premium`, with the
hard-coded constants `rf = 0.02` and `equity_risk_premium = 0.05`
(lines 35-36) and `beta` defaulted to 1 (line 34).  The sidebar
parameters `p` are in scope but unused, as in the source. -/
def costOfEquity (p : WaccParams) (rf : RawFinancials) : ℚ :=
  let beta := rf.beta.getD 1
  2/100 + beta * (5/100)

/-- Body of the `try` block of `calcular_wacc_y_roic` (lines 33-72):
returns `(wacc, roic, diferencia_roic_wacc, creando_valor)` or the
exception raised inside the block.  The only unguarded divisions are the
two by `total_capital` at line 61. -/
def calcularBody (p : WaccParams) (rf : RawFinancials) :
    Except String (ℚ × ℚ × ℚ × Bool) := do
  let market_cap := rf.marketCap.getD 0
  let ke := costOfEquity p rf
  let deuda_total := rf.totalDebt.getD 0
  let efectivo := rf.cashAndEquivalents.getD 0
  let patrimonio := rf.commonStockEquity.getD 0
  let ebit := rf.ebit.getD 0
  let kd := costOfDebt rf
  let tasa_impuestos := effectiveTaxRate rf
  let total_capital := market_cap + deuda_total
  let w_equity ← pydiv market_cap total_capital
  let w_debt ← pydiv deuda_total total_capital
  let wacc := w_equity * ke + w_debt * kd * (1 - tasa_impuestos)
  let nopat := ebit * (1 - tasa_impuestos)
  let capital_invertido := patrimonio + (deuda_total - efectivo)
  let roic := if capital_invertido ≠ 0 then nopat / capital_invertido else 0
  let diferencia_roic_wacc := roic - wacc
  let creando_valor := decide (roic > wacc)
  return (wacc, roic, diferencia_roic_wacc, creando_valor)

/-- `calcular_wacc_y_roic` (lines 21-76): the `except` clause catches any
exception and returns `(None, None, None)`; on success the function
returns `(wacc, roic, diferencia_roic_wacc)`. -/
def calcular_wacc_y_roic (p : WaccParams) (rf : RawFinancials) :
    Option ℚ × Option ℚ × Option ℚ :=
  match calcularBody p rf with
  | Except.ok (wacc, roic, diff, _) => (some wacc, some roic, some diff)
  | Except.error _ => (none, none, none)

/-- Python truthiness of an optional number (`if fcf and shares`,
line 120): `None` and `0` are falsy, everything else truthy. -/
def truthyQ (o : Option ℚ) : Bool :=
  match o with
  | none => false
  | some x => x ≠ 0

/-- Line 120 of `app.py`:
`pfcf = price / (fcf / shares) if fcf and shares else None`.
When the guard is truthy and `price` is `None`, Python evaluates
`None / (fcf / shares)` and raises `TypeError`. -/
def pfcfCalc (price fcf shares : Option ℚ) : Except String (Option ℚ) :=
  if truthyQ fcf && truthyQ shares then
    match price with
    | none => Except.error "TypeError"
    | some p => Except.ok (some (p / (fcf.getD 0 / shares.getD 0)))
  else
    Except.ok none

/-- The successful per-ticker record returned by
`obtener_datos_financieros` (lines 125-149): one field per dict key. -/
structure TickerRecord where
  ticker : String
  nombre : String
  sector : String
  pais : String
  industria : String
  precio : Option ℚ
  pe : Option ℚ
  pb : Option ℚ
  pfcf : Option ℚ
  dividendYear : Option ℚ
  dividendYieldPct : Option ℚ
  payoutRatio : Option ℚ
  roa : Option ℚ
  roe : Option ℚ
  currentRatio : Option ℚ
  quickRatio : Option ℚ
  ltDebtEq : Option ℚ
  debtEq : Option ℚ
  operMargin : Option ℚ
  profitMargin : Option ℚ
  wacc : Option ℚ
  roic : Option ℚ
  creacionDeValor : Option ℚ
  deriving DecidableEq

/-- The per-ticker outcome: either the success dict of lines 125-149 or
the error dict of line 151 (`ticker`, error message). -/
inductive TickerResult where
  | ok : TickerRecord → TickerResult
  | err : String → String → TickerResult
  deriving DecidableEq

/-- Whether a result is the success variant (Python: `"Error" not in d`,
line 208). -/
def TickerResult.isOk : TickerResult → Bool
  | TickerResult.ok _ => true
  | TickerResult.err _ _ => false

/-- Body of the `try` block of `obtener_datos_financieros`
(lines 81-149), given the provider's response `fetched` for the ticker:
builds the success dict, or propagates the exception raised inside the
block (a failed fetch, or the `TypeError` of line 120). -/
def obtenerBody (p : WaccParams) (fetched : Except String RawFinancials)
    (ticker : String) : Except String TickerRecord := do
  let rf ← fetched
  let price := rf.currentPrice
  let name := rf.longName.getD ticker
  let sector := rf.sector.getD "N/D"
  let country := rf.country.getD "N/D"
  let industry := rf.industry.getD "N/D"
  let pe := rf.trailingPE
  let pb := rf.priceToBook
  let dividend := rf.dividendRate
  let dividend_yield := rf.dividendYield
  let payout := rf.payoutRatio
  let roa := rf.returnOnAssets
  let roe := rf.returnOnEquity
  let current_ratio := rf.currentRatio
  let quick_ratio := rf.quickRatio
  let ltde := rf.longTermDebtToEquity
  let de := rf.debtToEquity
  let op_margin := rf.operatingMargins
  let profit_margin := rf.profitMargins
  let fcf := rf.freeCashFlow
  let shares := rf.sharesOutstanding
  let pfcf ← pfcfCalc price fcf shares
  let (wacc, roic, diferencia_roic_wacc) := calcular_wacc_y_roic p rf
  return { ticker := ticker, nombre := name, sector := sector,
           pais := country, industria := industry, precio := price,
           pe := pe, pb := pb, pfcf := pfcf, dividendYear := dividend,
           dividendYieldPct := dividend_yield, payoutRatio := payout,
           roa := roa, roe := roe, currentRatio := current_ratio,
           quickRatio := quick_ratio, ltDebtEq := ltde, debtEq := de,
           operMargin := op_margin, profitMargin := profit_margin,
           wacc := wacc, roic := roic,
           creacionDeValor := diferencia_roic_wacc }

/-- `obtener_datos_financieros` (lines 79-151): the `except` clause
turns any exception into the error dict `(ticker, message)`. -/
def obtener_datos_financieros (p : WaccParams)
    (fetched : Except String RawFinancials) (ticker : String) :
    TickerResult :=
  match obtenerBody p fetched ticker with
  | Except.ok r => TickerResult.ok r
  | Except.error e => TickerResult.err ticker e

/-- Python dict assignment `resultados[t] = v` (line 194): updating an
existing key keeps its position, a new key is appended at the end
(insertion-order semantics of Python dicts). -/
def dictInsert (d : List (String × TickerResult)) (k : String)
    (v : TickerResult) : List (String × TickerResult) :=
  if (d.map Prod.fst).contains k then
    d.map fun q => if q.1 = k then (k, v) else q
  else
    d ++ [(k, v)]

/-- A provider: the result of the `yfinance` fetch for the `i`-th call
of `obtener_datos_financieros` on a given ticker (an `Except.error` is
a `SourceError`). -/
def Provider := ℕ → String → Except String RawFinancials

/-- The inner per-ticker loop of `main` (lines 192-196): for each ticker
of the batch, store `obtener_datos_financieros(t)` in the results dict,
threading the global call counter `i`. -/
def procesarLote (p : WaccParams) (src : Provider) :
    ℕ → List (String × TickerResult) → List String →
    List (String × TickerResult)
  | _, d, [] => d
  | i, d, t :: ts =>
      procesarLote p src (i + 1)
        (dictInsert d t (obtener_datos_financieros p (src i t) t)) ts

/-- Line 188 slicing: `tickers[batch_start:batch_start + batch_size]`
with `batch_size = n + 1`; splits a list into contiguous chunks of at
most `n + 1` elements. -/
def toBatches (n : ℕ) : List String → List (List String)
  | [] => []
  | t :: ts => (t :: ts.take n) :: toBatches n (ts.drop n)
termination_by l => l.length
decreasing_by simp [List.length_drop]; omega

/-- The outer batch loop of `main` (lines 188-196), threading the start
index of each batch. -/
def procesarLotes (p : WaccParams) (src : Provider) :
    ℕ → List (String × TickerResult) → List (List String) →
    List (String × TickerResult)
  | _, d, [] => d
  | i, d, b :: bs => procesarLotes p src (i + b.length) (procesarLote p src i d b) bs

/-- Lines 182-196 of `main`: process every ticker, in batches of 10
(`batch_size = 10`), into the `resultados` dict. -/
def mainRun (p : WaccParams) (src : Provider) (tickers : List String) :
    List (String × TickerResult) :=
  procesarLotes p src 0 [] (toBatches 9 tickers)

/-- Line 208 of `main`:
`datos_validos = [d for d in datos if "Error" not in d]`. -/
def datos_validos (datos : List TickerResult) : List TickerRecord :=
  datos.filterMap fun d =>
    match d with
    | TickerResult.ok r => some r
    | TickerResult.err _ _ => none

/-- Lines 204-213 of `main`: take the dict's values, filter out error
records, and fail with the empty-result error when none remain,
otherwise build the table. -/
def aggregate (resultados : List (String × TickerResult)) :
    Except String (List TickerRecord) :=
  let datos := resultados.map Prod.snd
  let validos := datos_validos datos
  if validos = [] then
    Except.error "No se pudo obtener datos válidos para ningún ticker"
  else
    Except.ok validos

/-- The default sidebar parameter values of `app.py` (lines 17-19):
`Rf = 0.0435`, `Rm = 0.085`, `Tc = 0.21`. -/
def pDefault : WaccParams := { Rf := 435/10000, Rm := 85/1000, Tc := 21/100 }

/-- The WACC expression of line 61 on the defaulted inputs, written with
the intermediate quantities named; meaningful when
`market_cap + deuda_total ≠ 0`. -/
def waccOf (p : WaccParams) (rf : RawFinancials) : ℚ :=
  let market_cap := rf.marketCap.getD 0
  let deuda_total := rf.totalDebt.getD 0
  let total_capital := market_cap + deuda_total
  (market_cap / total_capital) * costOfEquity p rf +
    (deuda_total / total_capital) * costOfDebt rf * (1 - effectiveTaxRate rf)

/-- Line 64 of `app.py`: `nopat = ebit * (1 - tasa_impuestos)`. -/
def nopatOf (rf : RawFinancials) : ℚ :=
  rf.ebit.getD 0 * (1 - effectiveTaxRate rf)

/-- Lines 65-66 of `app.py`: ROIC with the zero-denominator guard. -/
def roicOf (rf : RawFinancials) : ℚ :=
  let capital_invertido :=
    rf.commonStockEquity.getD 0 + (rf.totalDebt.getD 0 - rf.cashAndEquivalents.getD 0)
  if capital_invertido ≠ 0 then nopatOf rf / capital_invertido else 0

/-- The distinct tickers of a list, each at the position of its first
occurrence: the key order of a Python dict filled by repeated
assignment. -/
def firstOccurrenceList : List String → List String
  | [] => []
  | t :: ts => t :: (firstOccurrenceList ts).filter (fun s => s != t)

/-- Position of the last occurrence of `k` in the list (meaningful when
`k` is a member): the index of the processing whose result a Python dict
retains for key `k`. -/
def lastCallIdx : List String → String → ℕ
  | [], _ => 0
  | _ :: ts, k => if k ∈ ts then lastCallIdx ts k + 1 else 0

/-- A ticker whose provider data has `marketCap = 0` and
`totalDebt = 0`. -/
def rf_zero : RawFinancials :=
  { emptyRF with marketCap := some 0, totalDebt := some 0 }

/-- Provider data with market capitalization but no price, cash-flow or
share data: the extractor succeeds and the WACC/ROIC block computes. -/
def rf_c3 : RawFinancials :=
  { emptyRF with marketCap := some 1000, totalDebt := some 0, beta := some 1 }

/-- The record the extractor builds from `rf_c3`. -/
def rec_c3 : TickerRecord :=
  { ticker := "T", nombre := "T", sector := "N/D", pais := "N/D",
    industria := "N/D", precio := none, pe := none, pb := none,
    pfcf := none, dividendYear := none, dividendYieldPct := none,
    payoutRatio := none, roa := none, roe := none, currentRatio := none,
    quickRatio := none, ltDebtEq := none, debtEq := none,
    operMargin := none, profitMargin := none, wacc := some (7/100),
    roic := some 0, creacionDeValor := some (0 - 7/100) }

/-- Provider data in which every field is present except the price. -/
def rf_c4 : RawFinancials where
  marketCap := some 1000
  beta := some 1
  totalDebt := some 200
  cashAndEquivalents := some 50
  commonStockEquity := some 400
  interestExpense := some 10
  ebt := some 80
  incomeTaxExpense := some 16
  ebit := some 100
  currentPrice := none
  longName := some "ACME Corp"
  sector := some "Tech"
  country := some "US"
  industry := some "Software"
  trailingPE := some 15
  priceToBook := some 3
  dividendRate := some 1
  dividendYield := some (2/100)
  payoutRatio := some (30/100)
  returnOnAssets := some (8/100)
  returnOnEquity := some (20/100)
  currentRatio := some 2
  quickRatio := some 1
  longTermDebtToEquity := some (40/100)
  debtToEquity := some (50/100)
  operatingMargins := some (25/100)
  profitMargins := some (20/100)
  freeCashFlow := some 100
  sharesOutstanding := some 10

/-- Provider data with only a profitability field present. -/
def rf_c4w : RawFinancials := { emptyRF with returnOnAssets := some (3/100) }

/-- The record the extractor builds from `rf_c4w`. -/
def rec_c4w : TickerRecord :=
  { ticker := "T", nombre := "T", sector := "N/D", pais := "N/D",
    industria := "N/D", precio := none, pe := none, pb := none,
    pfcf := none, dividendYear := none, dividendYieldPct := none,
    payoutRatio := none, roa := some (3/100), roe := none,
    currentRatio := none, quickRatio := none, ltDebtEq := none,
    debtEq := none, operMargin := none, profitMargin := none,
    wacc := none, roic := none, creacionDeValor := none }

/-- Provider data with a present price, a present-but-zero free cash
flow and nonzero shares outstanding. -/
def rf_c5 : RawFinancials :=
  { emptyRF with
      currentPrice := some 10
      freeCashFlow := some 0
      sharesOutstanding := some 1 }

/-- The record the extractor builds from `rf_c5`. -/
def rec_c5 : TickerRecord :=
  { ticker := "T", nombre := "T", sector := "N/D", pais := "N/D",
    industria := "N/D", precio := some 10, pe := none, pb := none,
    pfcf := none, dividendYear := none, dividendYieldPct := none,
    payoutRatio := none, roa := none, roe := none, currentRatio := none,
    quickRatio := none, ltDebtEq := none, debtEq := none,
    operMargin := none, profitMargin := none, wacc := none, roic := none,
    creacionDeValor := none }

/-- Provider data with price, free cash flow and shares outstanding all
present and nonzero. -/
def rf_c5w : RawFinancials :=
  { emptyRF with
      currentPrice := some 10
      freeCashFlow := some 100
      sharesOutstanding := some 10 }

/-- A provider for which the ticker "BAD" raises a source error and
every other ticker returns data that extracts successfully. -/
def srcW : Provider := fun _ t =>
  if t = "BAD" then Except.error "HTTP 404" else Except.ok emptyRF

/-- Provider data with `EBT = 0` and an operating profit. -/
def rf_c8 : RawFinancials := { emptyRF with ebt := some 0, ebit := some 100 }

/-- The pure-equity example of the spec: `marketCap = 1000`,
`totalDebt = 0`, `beta = 1`. -/
def rf_c9 : RawFinancials :=
  { emptyRF with marketCap := some 1000, totalDebt := some 0, beta := some 1 }

theorem calcularBody_eq (p : WaccParams) (rf : RawFinancials) :
    calcularBody p rf =
      if rf.marketCap.getD 0 + rf.totalDebt.getD 0 = 0 then
        Except.error "ZeroDivisionError"
      else
        Except.ok (waccOf p rf, roicOf rf, roicOf rf - waccOf p rf,
          decide (roicOf rf > waccOf p rf)) := by
  unfold calcularBody waccOf roicOf nopatOf pydiv
  by_cases h : rf.marketCap.getD 0 + rf.totalDebt.getD 0 = 0 <;>
    simp [h, bind, Except.bind, pure, Except.pure]

/-- C1: for provider data with `marketCap = 0` and `totalDebt = 0` the
calculator returns absent WACC, ROIC and spread values; the
`ZeroDivisionError` of line 61 is caught by the function's own
`except` clause (the embedded function is total), so no exception
reaches the caller. -/
theorem c1_zero_capital_unavailable (p : WaccParams) (rf : RawFinancials)
    (hE : rf.marketCap.getD 0 = 0) (hD : rf.totalDebt.getD 0 = 0) :
    calcular_wacc_y_roic p rf = (none, none, none) := by
  simp [calcular_wacc_y_roic, calcularBody_eq, hE, hD]

theorem c1_zero_capital_unavailable_witness :
    rf_zero.marketCap.getD 0 = 0 ∧ rf_zero.totalDebt.getD 0 = 0 ∧
    calcular_wacc_y_roic pDefault rf_zero = (none, none, none) :=
  ⟨by simp [rf_zero, emptyRF], by simp [rf_zero, emptyRF],
    c1_zero_capital_unavailable pDefault rf_zero
      (by simp [rf_zero, emptyRF]) (by simp [rf_zero, emptyRF])⟩

/-- C2: the sidebar parameters `Rf`, `Rm`, `Tc` do not influence the
calculator: for any two settings, the cost of equity and the whole
`(wacc, roic, spread)` output coincide (the body reads only the
hard-coded constants of lines 35-36). -/
theorem c2_config_noninterference (p₁ p₂ : WaccParams) (rf : RawFinancials) :
    costOfEquity p₁ rf = costOfEquity p₂ rf ∧
    calcular_wacc_y_roic p₁ rf = calcular_wacc_y_roic p₂ rf :=
  ⟨rfl, rfl⟩

/-- C8: when `EBT = 0` the effective tax rate of line 57 is exactly
`0.21`, and `NOPAT` (line 64) is computed with that rate. -/
theorem c8_tax_fallback (rf : RawFinancials) (h : rf.ebt.getD 0 = 0) :
    effectiveTaxRate rf = 21/100 ∧
    nopatOf rf = rf.ebit.getD 0 * (1 - 21/100) := by
  unfold nopatOf effectiveTaxRate
  simp [h]

theorem c8_tax_fallback_witness :
    effectiveTaxRate rf_c8 = 21/100 ∧
    nopatOf rf_c8 = rf_c8.ebit.getD 0 * (1 - 21/100) :=
  c8_tax_fallback rf_c8 (by simp [rf_c8, emptyRF])

/-- C9: the pure-equity example: `marketCap = 1000`, `totalDebt = 0`,
`beta = 1` give `ke = 0.07` and `WACC = 0.07` exactly. -/
theorem c9_pure_equity :
    costOfEquity pDefault rf_c9 = 7/100 ∧
    (calcular_wacc_y_roic pDefault rf_c9).1 = some (7/100) := by
  constructor
  · norm_num [costOfEquity, rf_c9, emptyRF]
  · simp [calcular_wacc_y_roic, calcularBody_eq, rf_c9, emptyRF, waccOf,
      roicOf, nopatOf, costOfEquity, costOfDebt, effectiveTaxRate]
    norm_num

theorem obtenerBody_eq (p : WaccParams) (rf : RawFinancials) (t : String) :
    obtenerBody p (Except.ok rf) t =
      match pfcfCalc rf.currentPrice rf.freeCashFlow rf.sharesOutstanding with
      | Except.error e => Except.error e
      | Except.ok pfcf =>
          Except.ok
            { ticker := t, nombre := rf.longName.getD t,
              sector := rf.sector.getD "N/D", pais := rf.country.getD "N/D",
              industria := rf.industry.getD "N/D", precio := rf.currentPrice,
              pe := rf.trailingPE, pb := rf.priceToBook, pfcf := pfcf,
              dividendYear := rf.dividendRate,
              dividendYieldPct := rf.dividendYield,
              payoutRatio := rf.payoutRatio, roa := rf.returnOnAssets,
              roe := rf.returnOnEquity, currentRatio := rf.currentRatio,
              quickRatio := rf.quickRatio, ltDebtEq := rf.longTermDebtToEquity,
              debtEq := rf.debtToEquity, operMargin := rf.operatingMargins,
              profitMargin := rf.profitMargins,
              wacc := (calcular_wacc_y_roic p rf).1,
              roic := (calcular_wacc_y_roic p rf).2.1,
              creacionDeValor := (calcular_wacc_y_roic p rf).2.2 } := by
  cases h : pfcfCalc rf.currentPrice rf.freeCashFlow rf.sharesOutstanding <;>
    simp [obtenerBody, h, bind, Except.bind, pure, Except.pure]

/-- C3: for a successful extraction whose WACC and ROIC were computed,
the stored spread (`diferencia_roic_wacc`, line 69, kept in the record's
value-creation column, line 148) equals `ROIC - WACC` exactly, and the
value-creation flag `creando_valor` (line 70) is `true` iff
`ROIC > WACC`. -/
theorem c3_spread_and_label (p : WaccParams) (rf : RawFinancials)
    (t : String) (rec : TickerRecord) (w r : ℚ)
    (hrec : obtener_datos_financieros p (Except.ok rf) t = TickerResult.ok rec)
    (hw : rec.wacc = some w) (hr : rec.roic = some r) :
    rec.creacionDeValor = some (r - w) ∧
    ∀ d b, calcularBody p rf = Except.ok (w, r, d, b) →
      d = r - w ∧ (b = true ↔ r > w) := by
  unfold obtener_datos_financieros at hrec
  rw [obtenerBody_eq] at hrec
  rcases hpf : pfcfCalc rf.currentPrice rf.freeCashFlow rf.sharesOutstanding with e | pf
  · rw [hpf] at hrec
    simp at hrec
  · rw [hpf] at hrec
    simp only [TickerResult.ok.injEq] at hrec
    subst hrec
    simp only [] at hw hr ⊢
    by_cases hz : rf.marketCap.getD 0 + rf.totalDebt.getD 0 = 0
    · simp [calcular_wacc_y_roic, calcularBody_eq, hz] at hw
    · have hw' : waccOf p rf = w := by
        simpa [calcular_wacc_y_roic, calcularBody_eq, hz] using hw
      have hr' : roicOf rf = r := by
        simpa [calcular_wacc_y_roic, calcularBody_eq, hz] using hr
      subst hw'
      subst hr'
      constructor
      · simp [calcular_wacc_y_roic, calcularBody_eq, hz]
      · intro d b hB
        rw [calcularBody_eq] at hB
        simp only [if_neg hz, Except.ok.injEq, Prod.mk.injEq] at hB
        obtain ⟨-, -, hd, hb⟩ := hB
        constructor
        · exact hd.symm
        · rw [← hb]
          simp

theorem c3_spread_and_label_witness :
    rec_c3.creacionDeValor = some (0 - 7/100) ∧
    ∀ d b, calcularBody pDefault rf_c3 = Except.ok (7/100, 0, d, b) →
      d = 0 - 7/100 ∧ (b = true ↔ (0:ℚ) > 7/100) :=
  c3_spread_and_label pDefault rf_c3 "T" rec_c3 (7/100) 0
    (by norm_num [obtener_datos_financieros, obtenerBody_eq, pfcfCalc, truthyQ,
      rf_c3, emptyRF, rec_c3, calcular_wacc_y_roic, calcularBody_eq, waccOf,
      roicOf, nopatOf, costOfEquity, costOfDebt, effectiveTaxRate])
    (by rfl) (by rfl)

/-- C4 (counterexample): provider data in which exactly one field — the
price — is absent, while free cash flow and shares outstanding are
present and nonzero, makes `obtener_datos_financieros` abort
(the `None / (fcf / shares)` of line 120 raises `TypeError`) and return
a failure record, refuting the claim that the absence of any single
line item cannot abort the extraction. -/
theorem c4_missing_price_aborts :
    rf_c4.currentPrice = none ∧
    rf_c4.freeCashFlow.isSome = true ∧ rf_c4.sharesOutstanding.isSome = true ∧
    rf_c4.marketCap.isSome = true ∧ rf_c4.beta.isSome = true ∧
    rf_c4.totalDebt.isSome = true ∧ rf_c4.cashAndEquivalents.isSome = true ∧
    rf_c4.commonStockEquity.isSome = true ∧
    rf_c4.interestExpense.isSome = true ∧ rf_c4.ebt.isSome = true ∧
    rf_c4.incomeTaxExpense.isSome = true ∧ rf_c4.ebit.isSome = true ∧
    rf_c4.longName.isSome = true ∧ rf_c4.sector.isSome = true ∧
    rf_c4.country.isSome = true ∧ rf_c4.industry.isSome = true ∧
    rf_c4.trailingPE.isSome = true ∧ rf_c4.priceToBook.isSome = true ∧
    rf_c4.dividendRate.isSome = true ∧ rf_c4.dividendYield.isSome = true ∧
    rf_c4.payoutRatio.isSome = true ∧ rf_c4.returnOnAssets.isSome = true ∧
    rf_c4.returnOnEquity.isSome = true ∧ rf_c4.currentRatio.isSome = true ∧
    rf_c4.quickRatio.isSome = true ∧
    rf_c4.longTermDebtToEquity.isSome = true ∧
    rf_c4.debtToEquity.isSome = true ∧
    rf_c4.operatingMargins.isSome = true ∧
    rf_c4.profitMargins.isSome = true ∧
    (obtener_datos_financieros pDefault (Except.ok rf_c4) "AAPL").isOk = false := by
  refine ⟨rfl, rfl, rfl, rfl, rfl, rfl, rfl, rfl, rfl, rfl, rfl, rfl, rfl,
    rfl, rfl, rfl, rfl, rfl, rfl, rfl, rfl, rfl, rfl, rfl, rfl, rfl, rfl,
    rfl, rfl, ?_⟩
  norm_num [rf_c4, obtener_datos_financieros, obtenerBody_eq, pfcfCalc,
    truthyQ, TickerResult.isOk]

/-- C4 (amended): the extractor tolerates the absence of any single
line item except the price: an extraction from successfully fetched
data returns a successful record exactly when the price is present or
the `P/FCF` guard of line 120 is falsy (free cash flow or shares
outstanding absent or zero); when the price is absent while free cash
flow and shares outstanding are truthy, the extraction aborts with a
failure record.  In every successful record the direct ratios are
passed through from the raw data unchanged, so no field's absence
affects another field's value. -/
theorem c4_tolerates_missing_fields (p : WaccParams) (rf : RawFinancials)
    (t : String) :
    ((obtener_datos_financieros p (Except.ok rf) t).isOk =
      (rf.currentPrice.isSome ||
        !(truthyQ rf.freeCashFlow && truthyQ rf.sharesOutstanding))) ∧
    ∀ rec, obtener_datos_financieros p (Except.ok rf) t = TickerResult.ok rec →
      rec.precio = rf.currentPrice ∧ rec.pe = rf.trailingPE ∧
      rec.pb = rf.priceToBook ∧ rec.roa = rf.returnOnAssets ∧
      rec.roe = rf.returnOnEquity ∧ rec.currentRatio = rf.currentRatio ∧
      rec.debtEq = rf.debtToEquity ∧ rec.profitMargin = rf.profitMargins := by
  unfold obtener_datos_financieros
  rw [obtenerBody_eq]
  cases hp : rf.currentPrice with
  | none =>
    cases hg : truthyQ rf.freeCashFlow && truthyQ rf.sharesOutstanding
    · constructor
      · simp [pfcfCalc, hg, hp, TickerResult.isOk]
      · intro rec hrec
        simp only [pfcfCalc, hg, hp] at hrec
        simp only [Bool.false_eq_true, if_false, TickerResult.ok.injEq] at hrec
        subst hrec
        simp [hp]
    · constructor
      · simp [pfcfCalc, hg, hp, TickerResult.isOk]
      · intro rec hrec
        simp [pfcfCalc, hg, hp] at hrec
  | some pr =>
    cases hg : truthyQ rf.freeCashFlow && truthyQ rf.sharesOutstanding <;>
      (constructor
       · simp [pfcfCalc, hg, hp, TickerResult.isOk]
       · intro rec hrec
         simp only [pfcfCalc, hg, hp] at hrec
         simp only [Bool.false_eq_true, if_false, if_true, TickerResult.ok.injEq] at hrec
         subst hrec
         simp [hp])

theorem c4_tolerates_missing_fields_witness :
    ((obtener_datos_financieros pDefault (Except.ok rf_c4w) "T").isOk =
      (rf_c4w.currentPrice.isSome ||
        !(truthyQ rf_c4w.freeCashFlow && truthyQ rf_c4w.sharesOutstanding))) ∧
    (rec_c4w.precio = rf_c4w.currentPrice ∧ rec_c4w.pe = rf_c4w.trailingPE ∧
      rec_c4w.pb = rf_c4w.priceToBook ∧ rec_c4w.roa = rf_c4w.returnOnAssets ∧
      rec_c4w.roe = rf_c4w.returnOnEquity ∧
      rec_c4w.currentRatio = rf_c4w.currentRatio ∧
      rec_c4w.debtEq = rf_c4w.debtToEquity ∧
      rec_c4w.profitMargin = rf_c4w.profitMargins) :=
  ⟨(c4_tolerates_missing_fields pDefault rf_c4w "T").1,
    (c4_tolerates_missing_fields pDefault rf_c4w "T").2 rec_c4w (by
      simp [rf_c4w, rec_c4w, emptyRF, obtener_datos_financieros, obtenerBody_eq,
        pfcfCalc, truthyQ, calcular_wacc_y_roic, calcularBody_eq])⟩

/-- C5 (counterexample): provider data with the price present, free
cash flow present but zero, and shares outstanding present and nonzero:
the claim demands `P/FCF` to be set, but the truthiness guard of
line 120 treats the zero free cash flow as falsy and leaves `P/FCF`
absent in an otherwise successful record. -/
theorem c5_zero_fcf_leaves_pfcf_absent :
    rf_c5.freeCashFlow.isSome = true ∧ rf_c5.sharesOutstanding = some 1 ∧
    rf_c5.currentPrice = some 10 ∧
    obtener_datos_financieros pDefault (Except.ok rf_c5) "T" =
      TickerResult.ok rec_c5 ∧
    rec_c5.pfcf = none := by
  refine ⟨rfl, rfl, rfl, ?_, rfl⟩
  simp [rf_c5, rec_c5, emptyRF, obtener_datos_financieros, obtenerBody_eq,
    pfcfCalc, truthyQ, calcular_wacc_y_roic, calcularBody_eq]

/-- C5 (amended): when the price is present, the extraction succeeds
and sets `P/FCF` to `price / (freeCashFlow / sharesOutstanding)`
exactly when free cash flow and shares outstanding are both present
and nonzero, and leaves `P/FCF` absent otherwise.  (When the price is
absent and the guard is truthy, the extraction aborts instead —
see the C4 counterexample.) -/
theorem c5_pfcf_characterization (p : WaccParams) (rf : RawFinancials)
    (t : String) (pr : ℚ) (hp : rf.currentPrice = some pr) :
    ∃ rec, obtener_datos_financieros p (Except.ok rf) t = TickerResult.ok rec ∧
      rec.pfcf = if truthyQ rf.freeCashFlow && truthyQ rf.sharesOutstanding then
          some (pr / (rf.freeCashFlow.getD 0 / rf.sharesOutstanding.getD 0))
        else none := by
  have hpf : pfcfCalc rf.currentPrice rf.freeCashFlow rf.sharesOutstanding =
      Except.ok (if truthyQ rf.freeCashFlow && truthyQ rf.sharesOutstanding then
        some (pr / (rf.freeCashFlow.getD 0 / rf.sharesOutstanding.getD 0))
      else none) := by
    unfold pfcfCalc
    cases hg : truthyQ rf.freeCashFlow && truthyQ rf.sharesOutstanding <;>
      simp [hg, hp]
  unfold obtener_datos_financieros
  rw [obtenerBody_eq, hpf]
  exact ⟨_, rfl, rfl⟩

theorem c5_pfcf_characterization_witness :
    ∃ rec, obtener_datos_financieros pDefault (Except.ok rf_c5w) "T" =
      TickerResult.ok rec ∧ rec.pfcf = some 1 := by
  obtain ⟨rec, h1, h2⟩ :=
    c5_pfcf_characterization pDefault rf_c5w "T" 10 (by rfl)
  refine ⟨rec, h1, ?_⟩
  rw [h2]
  norm_num [rf_c5w, emptyRF, truthyQ]

/-- C6: over the input `["GOOD", "BAD", "GOOD2"]`, where the provider
raises a source error for "BAD" and the two GOOD tickers extract
successfully, the report holds exactly the three per-ticker results in
input order: two successful records and one failure record; the
failure neither aborts nor skips the tickers after it. -/
theorem c6_failure_isolation (p : WaccParams) (src : Provider) (e : String)
    (h1 : (obtener_datos_financieros p (src 0 "GOOD") "GOOD").isOk = true)
    (h2 : src 1 "BAD" = Except.error e)
    (h3 : (obtener_datos_financieros p (src 2 "GOOD2") "GOOD2").isOk = true) :
    (mainRun p src ["GOOD", "BAD", "GOOD2"]).map Prod.snd =
      [obtener_datos_financieros p (src 0 "GOOD") "GOOD",
        TickerResult.err "BAD" e,
        obtener_datos_financieros p (src 2 "GOOD2") "GOOD2"] ∧
    ((mainRun p src ["GOOD", "BAD", "GOOD2"]).map Prod.snd).countP
      (fun d => d.isOk) = 2 ∧
    ((mainRun p src ["GOOD", "BAD", "GOOD2"]).map Prod.snd).countP
      (fun d => !d.isOk) = 1 := by
  have herr : obtener_datos_financieros p (src 1 "BAD") "BAD" =
      TickerResult.err "BAD" e := by
    rw [obtener_datos_financieros, h2]
    rfl
  have hlist : (mainRun p src ["GOOD", "BAD", "GOOD2"]).map Prod.snd =
      [obtener_datos_financieros p (src 0 "GOOD") "GOOD",
        TickerResult.err "BAD" e,
        obtener_datos_financieros p (src 2 "GOOD2") "GOOD2"] := by
    rw [← herr]
    simp [mainRun, toBatches, procesarLotes, procesarLote, dictInsert]
  refine ⟨hlist, ?_, ?_⟩ <;>
  · rw [hlist]
    have hbad : (TickerResult.err "BAD" e).isOk = false := rfl
    simp [List.countP_cons, h1, h3, hbad]

theorem c6_failure_isolation_witness :
    ((mainRun pDefault srcW ["GOOD", "BAD", "GOOD2"]).map Prod.snd).countP
      (fun d => d.isOk) = 2 ∧
    ((mainRun pDefault srcW ["GOOD", "BAD", "GOOD2"]).map Prod.snd).countP
      (fun d => !d.isOk) = 1 :=
  ⟨(c6_failure_isolation pDefault srcW "HTTP 404"
      (by simp [srcW, obtener_datos_financieros, obtenerBody_eq, pfcfCalc,
        truthyQ, emptyRF, TickerResult.isOk])
      (by simp [srcW])
      (by simp [srcW, obtener_datos_financieros, obtenerBody_eq, pfcfCalc,
        truthyQ, emptyRF, TickerResult.isOk])).2.1,
    (c6_failure_isolation pDefault srcW "HTTP 404"
      (by simp [srcW, obtener_datos_financieros, obtenerBody_eq, pfcfCalc,
        truthyQ, emptyRF, TickerResult.isOk])
      (by simp [srcW])
      (by simp [srcW, obtener_datos_financieros, obtenerBody_eq, pfcfCalc,
        truthyQ, emptyRF, TickerResult.isOk])).2.2⟩

/-- C7: when every per-ticker result is a failure record, the
aggregation step fails with the empty-result error of line 210 instead
of producing a table. -/
theorem c7_empty_result (resultados : List (String × TickerResult))
    (h : ∀ q ∈ resultados, (Prod.snd q).isOk = false) :
    aggregate resultados =
      Except.error "No se pudo obtener datos válidos para ningún ticker" := by
  unfold aggregate datos_validos
  have hnil : List.filterMap (fun d => match d with
      | TickerResult.ok r => some r
      | TickerResult.err _ _ => none) (resultados.map Prod.snd) = [] := by
    rw [List.filterMap_eq_nil_iff]
    intro a ha
    obtain ⟨q, hq, rfl⟩ := List.mem_map.mp ha
    have hq2 := h q hq
    cases hq3 : q.2 <;> simp_all [TickerResult.isOk]
  simp [hnil]

theorem c7_empty_result_witness :
    aggregate [("X", TickerResult.err "X" "boom")] =
      Except.error "No se pudo obtener datos válidos para ningún ticker" :=
  c7_empty_result _ (by
    intro q hq
    simp at hq
    rw [hq]
    rfl)

theorem procesarLote_append (p : WaccParams) (src : Provider) :
    ∀ (l₁ l₂ : List String) (i : ℕ) (d : List (String × TickerResult)),
      procesarLote p src i d (l₁ ++ l₂) =
        procesarLote p src (i + l₁.length) (procesarLote p src i d l₁) l₂ := by
  intro l₁
  induction l₁ with
  | nil => intro l₂ i d; simp [procesarLote]
  | cons t ts ih =>
    intro l₂ i d
    simp only [List.cons_append, procesarLote, List.append_eq]
    rw [ih]
    congr 1
    simp only [List.length_cons]
    omega

theorem procesarLotes_toBatches (p : WaccParams) (src : Provider) (n : ℕ) :
    ∀ (m : ℕ) (ts : List String), ts.length ≤ m →
      ∀ (i : ℕ) (d : List (String × TickerResult)),
        procesarLotes p src i d (toBatches n ts) = procesarLote p src i d ts := by
  intro m
  induction m with
  | zero =>
    intro ts hts i d
    have : ts = [] := List.eq_nil_of_length_eq_zero (Nat.le_zero.mp hts)
    subst this
    simp [toBatches, procesarLotes, procesarLote]
  | succ m ih =>
    intro ts hts i d
    cases ts with
    | nil => simp [toBatches, procesarLotes, procesarLote]
    | cons t rest =>
      rw [toBatches]
      simp only [procesarLotes]
      rw [ih (rest.drop n) (by simp [List.length_drop]; simp at hts; omega)]
      rw [← procesarLote_append p src (t :: rest.take n) (rest.drop n) i d]
      congr 1
      simp [List.take_append_drop]

theorem mem_firstOccurrenceList (k : String) :
    ∀ ts, k ∈ firstOccurrenceList ts ↔ k ∈ ts := by
  intro ts
  induction ts with
  | nil => simp [firstOccurrenceList]
  | cons t ts ih =>
    by_cases hk : k = t
    · simp [firstOccurrenceList, hk]
    · simp [firstOccurrenceList, List.mem_filter, ih, hk, bne_iff_ne]

theorem firstOccurrenceList_nodup : ∀ ts, (firstOccurrenceList ts).Nodup := by
  intro ts
  induction ts with
  | nil => simp [firstOccurrenceList]
  | cons t ts ih =>
    simp only [firstOccurrenceList, List.nodup_cons]
    refine ⟨?_, ih.filter _⟩
    intro hmem
    have h2 := (List.mem_filter.mp hmem).2
    simp at h2

theorem firstOccurrenceList_append (t : String) :
    ∀ ts, firstOccurrenceList (ts ++ [t]) =
      if t ∈ ts then firstOccurrenceList ts
      else firstOccurrenceList ts ++ [t] := by
  intro ts
  induction ts with
  | nil => simp [firstOccurrenceList]
  | cons h ts ih =>
    simp only [List.cons_append, firstOccurrenceList, List.append_eq]
    rw [ih]
    by_cases hmem : t ∈ ts
    · rw [if_pos hmem, if_pos (List.mem_cons.mpr (Or.inr hmem))]
    · rw [if_neg hmem]
      by_cases hth : t = h
      · subst hth
        rw [if_pos (List.mem_cons_self t ts), List.filter_append]
        simp
      · rw [if_neg (by simp [List.mem_cons, hth, hmem]), List.filter_append]
        simp [bne_iff_ne, hth]

theorem lastCallIdx_append_ne (k t : String) (hkt : k ≠ t) :
    ∀ ts, lastCallIdx (ts ++ [t]) k = lastCallIdx ts k := by
  intro ts
  induction ts with
  | nil => simp [lastCallIdx, hkt]
  | cons h ts ih =>
    simp only [List.cons_append, lastCallIdx, List.append_eq, List.mem_append,
      List.mem_singleton, hkt, or_false, ih]

theorem lastCallIdx_append_self (t : String) :
    ∀ ts, lastCallIdx (ts ++ [t]) t = ts.length := by
  intro ts
  induction ts with
  | nil => simp [lastCallIdx]
  | cons h ts ih =>
    simp [lastCallIdx, List.mem_append, ih]

theorem map_fst_keyed (g : String → TickerResult) (l : List String) :
    (l.map (fun k => (k, g k))).map Prod.fst = l := by
  induction l with
  | nil => rfl
  | cons a l ih => simp [ih]

theorem procesarLote_spec (p : WaccParams) (src : Provider) (ts : List String) :
    procesarLote p src 0 [] ts =
      (firstOccurrenceList ts).map
        (fun k => (k, obtener_datos_financieros p (src (lastCallIdx ts k) k) k)) := by
  induction ts using List.reverseRecOn with
  | nil => simp [procesarLote, firstOccurrenceList]
  | append_singleton ts t ih =>
    rw [procesarLote_append p src ts [t] 0 []]
    simp only [Nat.zero_add, procesarLote]
    rw [ih, firstOccurrenceList_append]
    by_cases hmem : t ∈ ts
    · rw [if_pos hmem]
      unfold dictInsert
      rw [map_fst_keyed]
      have hcont : (firstOccurrenceList ts).contains t = true := by
        rw [List.elem_iff]
        exact (mem_firstOccurrenceList t ts).mpr hmem
      rw [if_pos hcont]
      rw [List.map_map]
      apply List.map_congr_left
      intro k hk
      have hk' : k ∈ ts := (mem_firstOccurrenceList k ts).mp hk
      by_cases hkt : k = t
      · subst hkt
        simp [lastCallIdx_append_self]
      · simp [Function.comp, hkt, lastCallIdx_append_ne k t hkt]
    · rw [if_neg hmem]
      unfold dictInsert
      rw [map_fst_keyed]
      have hcont : (firstOccurrenceList ts).contains t = false := by
        rw [Bool.eq_false_iff]
        intro hc
        exact hmem ((mem_firstOccurrenceList t ts).mp (List.elem_iff.mp hc))
      rw [hcont]
      simp only [Bool.false_eq_true, if_false, List.map_append, List.map_cons,
        List.map_nil]
      congr 1
      · apply List.map_congr_left
        intro k hk
        have hk' : k ∈ ts := (mem_firstOccurrenceList k ts).mp hk
        have hkt : k ≠ t := fun h => hmem (h ▸ hk')
        simp [lastCallIdx_append_ne k t hkt]
      · simp [lastCallIdx_append_self]

/-- C10: the results dict of `main` (line 182) is keyed by the
normalized ticker, so the report holds exactly one entry per distinct
ticker: the entries appear in first-occurrence order, each entry for a
ticker holds the result of the last call that processed it (call
indices count positions of the input list), the keys are duplicate
free, and the report's length is the number of distinct tickers rather
than the input length. -/
theorem c10_duplicate_collapse (p : WaccParams) (src : Provider) (ts : List String) :
    mainRun p src ts =
      (firstOccurrenceList ts).map
        (fun k => (k, obtener_datos_financieros p (src (lastCallIdx ts k) k) k)) ∧
    ((mainRun p src ts).map Prod.fst).Nodup ∧
    (mainRun p src ts).length = ts.toFinset.card := by
  have hmain : mainRun p src ts = procesarLote p src 0 [] ts :=
    procesarLotes_toBatches p src 9 ts.length ts (le_refl _) 0 []
  have hspec := procesarLote_spec p src ts
  refine ⟨hmain.trans hspec, ?_, ?_⟩
  · rw [hmain, hspec, map_fst_keyed]
    exact firstOccurrenceList_nodup ts
  · rw [hmain, hspec, List.length_map]
    have h1 : (firstOccurrenceList ts).toFinset = ts.toFinset := by
      ext a
      simp [List.mem_toFinset, mem_firstOccurrenceList]
    rw [← List.toFinset_card_of_nodup (firstOccurrenceList_nodup ts), h1]
